import Mathlib

/-!
Verification of the CAN-bus frame decoder in `mercury/can.py`.

The decoder is embedded shallowly: the mutable `self.message` string of the
Python `CANDecoder` class becomes an explicit `List Bool` state threaded
through each operation, and Python exceptions become an `Except DecErr` result.
After `__init__` normalizes the input with `bin(int(...))`, every character of
`self.message` past the `"0b"` prefix is a binary digit, so the message is
modelled as a list of booleans (`true` = `'1'`).  The two characters of the
`"0b"` prefix that `bin` produces and `_decode_can_message` strips are
accounted for in the length check (`+ 2`), which in the source applies to the
still-prefixed string.
-/

namespace Mercury

/-- A Python runtime value as it appears in the decoder's field dictionary:
an `int`, a `str`, or `None`.  Needed to model Python's cross-type `==`,
which the source uses when comparing decoded integer fields to the string
literal `"0"`. -/
inductive PyVal where
  | int : Nat → PyVal
  | str : String → PyVal
  | none : PyVal
deriving DecidableEq, Repr

/-- Python `==` on the values above: equal only within the same type;
`int == str` is `False`. -/
def pyEq : PyVal → PyVal → Bool
  | .int a, .int b => a == b
  | .str a, .str b => a == b
  | .none, .none => true
  | _, _ => false

/-- The exceptions the decoder can raise:
`InvalidBitException`, `MessageLengthException`, `NotImplementedError`
(from the `KeyError` handler in the arbitration-id lookup), Python's
`ValueError` (from `int("", 2)` / `int("")`), and `TypeError`
(arithmetic on `None`, never actually reached). -/
inductive DecErr where
  | invalidBit (value : PyVal) (fieldName : String)
  | messageLength (value : Nat)
  | notImplemented
  | valueError
  | typeError
deriving DecidableEq, Repr

/-- The sensor classes imported from `mercury.models`. -/
inductive SensorType where
  | temperature
  | acceleration
  | wheelSpeed
  | suspension
  | fuelLevel
deriving DecidableEq, Repr

/-- `ID_TO_SENSOR_MAP` from `can.py`. -/
def ID_TO_SENSOR_MAP : Nat → Option SensorType
  | 1 => some .temperature
  | 2 => some .acceleration
  | 3 => some .wheelSpeed
  | 4 => some .suspension
  | 5 => some .fuelLevel
  | _ => Option.none

/-- Dictionary lookup `ID_TO_SENSOR_MAP[self.data["can_id"]]` where the key is
a decoded field value (an `int` or `None`); `None` is not a key of the map, so
it also raises `KeyError` (modelled as lookup failure). -/
def mapLookup : Option Nat → Option SensorType
  | some id => ID_TO_SENSOR_MAP id
  | Option.none => Option.none

/-- `int(bits, 2)` on a non-empty string of binary digits, msb first. -/
def bitsToNat (bs : List Bool) : Nat :=
  bs.foldl (fun a b => 2 * a + (if b then 1 else 0)) 0

/-- Fuel-driven helper for `bin`: digits of `n` in base 2, msb first,
empty for `n = 0`.  The fuel only serves to make the recursion structural;
`fuel = n` always suffices because `n` at least halves each step. -/
def natBitsAux : Nat → Nat → List Bool
  | 0, _ => []
  | _, 0 => []
  | fuel + 1, m + 1 =>
      natBitsAux fuel ((m + 1) / 2) ++ [(m + 1) % 2 == 1]

/-- Binary digits of `n`, msb first, no leading zeros (`[]` for `0`). -/
def natBits (n : Nat) : List Bool := natBitsAux n n

/-- The digits of Python's `bin(n)` after the `"0b"` prefix: minimal binary
representation, except that `bin(0) = "0b0"` has the single digit `0`. -/
def pyBin (n : Nat) : List Bool := if n = 0 then [false] else natBits n

/-- Raw input to `CANDecoder.__init__`: either a string of binary digits
(`bytes` input is first UTF-8-decoded to such a string and then follows the
same path) or a non-negative integer.  For a binary-digit string the base-2
parse `int(s, 2)` succeeds exactly when the string is non-empty, so the
base-10 fallback of the source is reached only by the empty string, where
`int("")` raises `ValueError` as well. -/
inductive CANInput where
  | bitsStr : List Bool → CANInput
  | intVal : Nat → CANInput
deriving DecidableEq, Repr

/-- The `len(self.message) > 130` guard of `__init__`, applied to the
`"0b"`-prefixed string produced by `bin` — hence `+ 2`. -/
def lengthCheck (bits : List Bool) : Except DecErr (List Bool) :=
  if bits.length + 2 > 130 then
    Except.error (DecErr.messageLength (bits.length + 2))
  else
    Except.ok bits

/-- `CANDecoder.__init__`: normalize the input with `bin(int(...))` and apply
the length guard.  The result is the digit list of the normalized message
(the `"0b"` prefix being stripped again at the start of
`_decode_can_message`). -/
def canInit : CANInput → Except DecErr (List Bool)
  | .bitsStr s =>
      if s = [] then Except.error DecErr.valueError
      else lengthCheck (pyBin (bitsToNat s))
  | .intVal n => lengthCheck (pyBin n)

/-- `CANDecoder.read_bits`: slice off the first `num_bits` characters and
keep the rest as the new message.  Python slicing never fails: past the end
it just returns what is there. -/
def read_bits (num_bits : Nat) (message : List Bool) : List Bool × List Bool :=
  (message.take num_bits, message.drop num_bits)

/-- `CANDecoder.read_bits_as_int`: for a positive count, `int(bits, 2)` on
the slice — `ValueError` when the slice is empty; for `num_bits = 0` the
function body falls through and returns `None`. -/
def read_bits_as_int (num_bits : Nat) (message : List Bool) :
    Except DecErr (Option Nat × List Bool) :=
  if num_bits > 0 then
    let r := read_bits num_bits message
    if r.1 = [] then Except.error DecErr.valueError
    else Except.ok (some (bitsToNat r.1), r.2)
  else
    Except.ok (Option.none, message)

/-- View a decoded field value (int or `None`) as a Python value. -/
def optToPyVal : Option Nat → PyVal
  | some n => PyVal.int n
  | Option.none => PyVal.none

/-- `int(x)` / arithmetic on a decoded field: an `int` passes through,
`None` raises `TypeError`. -/
def pyIntOf : Option Nat → Except DecErr Nat
  | some n => Except.ok n
  | Option.none => Except.error DecErr.typeError

/-- The `self.data` dictionary at the end of `_decode_can_message`, one entry
per decoded field, each an `int` or `None` exactly as the source stores it. -/
structure CANData where
  sof : Option Nat
  can_id : Option Nat
  rtr : Option Nat
  ide : Option Nat
  srr : Option Nat
  extended_can_id : Option Nat
  r0 : Option Nat
  data_length_code : Option Nat
  data : Option Nat
  crc_segment : Option Nat
  crc_delimiter : Option Nat
  ack_bit : Option Nat
  ack_delimiter : Option Nat
  end_of_frame : Option Nat
  interframe_space : Option Nat
deriving DecidableEq, Repr

/-- `CANDecoder._decode_can_message`, field by field in source order.  The
`"0b"` strip at its start is already reflected in `canInit` returning bare
digits.  The fixed-bit guards compare the decoded value to the string `"0"`
with Python `==`, exactly as the source does. -/
def _decode_can_message (message : List Bool) :
    Except DecErr (SensorType × CANData) := do
  let (sof, message) ← read_bits_as_int 1 message
  if pyEq (optToPyVal sof) (PyVal.str "0") then
    throw (DecErr.invalidBit (optToPyVal sof) "Start of Frame")
  let (can_id, message) ← read_bits_as_int 11 message
  let sensor_type ← match mapLookup can_id with
    | some s => pure s
    | Option.none => throw DecErr.notImplemented
  let (rtr, message) ← read_bits_as_int 1 message
  let (ide, message) ← read_bits_as_int 1 message
  let ideVal ← pyIntOf ide
  let (srr, extended_can_id, rtr, message) ←
    if ideVal == 1 then do
      let srr := rtr
      let (extended_can_id, message) ← read_bits_as_int 18 message
      let (rtr, message) ← read_bits_as_int 1 message
      pure (srr, extended_can_id, rtr, message)
    else
      pure ((Option.none : Option Nat), (Option.none : Option Nat), rtr, message)
  let (r0, message) ← read_bits_as_int 1 message
  let (data_length_code, message) ← read_bits_as_int 4 message
  let dlcVal ← pyIntOf data_length_code
  let (data, message) ← read_bits_as_int (dlcVal * 8) message
  let (crc_segment, message) ← read_bits_as_int 15 message
  let (crc_delimiter, message) ← read_bits_as_int 1 message
  if pyEq (optToPyVal crc_delimiter) (PyVal.str "0") then
    throw (DecErr.invalidBit (optToPyVal crc_delimiter) "CRC Delimiter")
  let (ack_bit, message) ← read_bits_as_int 1 message
  let (ack_delimiter, message) ← read_bits_as_int 1 message
  if pyEq (optToPyVal ack_delimiter) (PyVal.str "0") then
    throw (DecErr.invalidBit (optToPyVal ack_delimiter) "ACK Delimiter")
  let (end_of_frame, message) ← read_bits_as_int 7 message
  let (interframe_space, _message) ← read_bits_as_int 3 message
  pure (sensor_type,
    { sof := sof, can_id := can_id, rtr := rtr, ide := ide, srr := srr,
      extended_can_id := extended_can_id, r0 := r0,
      data_length_code := data_length_code, data := data,
      crc_segment := crc_segment, crc_delimiter := crc_delimiter,
      ack_bit := ack_bit, ack_delimiter := ack_delimiter,
      end_of_frame := end_of_frame, interframe_space := interframe_space })

/-- `CANDecoder.decode_can_message`: keep only the sensor type and the
`data` payload.  The source guards with `if data:`, where `data` is the full
field dictionary; at every point where `_decode_can_message` returns, that
dictionary holds all fifteen fields and is therefore truthy, so the
`(None, None)` branch is dead code. -/
def decode_can_message (message : List Bool) :
    Except DecErr (SensorType × Option Nat) := do
  let (sensor_type, data) ← _decode_can_message message
  pure (sensor_type, data.data)

/-- The spec's `decode` entry point: construct the decoder (`__init__`) and
run `decode_can_message`. -/
def decode (input : CANInput) : Except DecErr (SensorType × Option Nat) := do
  let message ← canInit input
  decode_can_message message

/-- The spec's `decode_full` entry point: construct the decoder and run
`decode_can_message_full_dict`, which just forwards to
`_decode_can_message`. -/
def decode_full (input : CANInput) : Except DecErr (SensorType × CANData) := do
  let message ← canInit input
  _decode_can_message message

/-! Concrete inputs used by the theorems below. -/

/-- The hand-built bitstream of the spec's concrete Temperature scenario:
SOF=0, arbitration id `00000000001`, RTR=0, IDE=0, reserved=0, DLC=`0001`,
one data byte `00000000`, 15 zero CRC bits, CRC delimiter=1, ACK=0,
ACK delimiter=1, seven EOF ones, three IFS ones; 55 bits in wire order. -/
def c1bits : List Bool :=
  [false] ++ (List.replicate 10 false ++ [true]) ++ [false, false, false] ++
  [false, false, false, true] ++ List.replicate 8 false ++
  List.replicate 15 false ++ [true, false, true] ++
  List.replicate 7 true ++ List.replicate 3 true

/-- The Frame record the bits of `c1bits` were laid out from, field by field. -/
def c1frame : CANData :=
  { sof := some 0, can_id := some 1, rtr := some 0, ide := some 0,
    srr := Option.none, extended_can_id := Option.none, r0 := some 0,
    data_length_code := some 1, data := some 0, crc_segment := some 0,
    crc_delimiter := some 1, ack_bit := some 0, ack_delimiter := some 1,
    end_of_frame := some 127, interframe_space := some 7 }

/-- A 55-bit frame whose first bit (SOF) is 1 — so normalization keeps every
bit — with arbitration id 1, RTR=0, IDE=0, reserved=0, DLC=1, data byte
`10101010`, zero CRC, CRC delimiter=0, ACK=0, ACK delimiter=0, EOF and IFS
all ones: it violates all three fixed-bit rules at once. -/
def c3bits : List Bool :=
  [true] ++ (List.replicate 10 false ++ [true]) ++ [false, false, false] ++
  [false, false, false, true] ++
  [true, false, true, false, true, false, true, false] ++
  List.replicate 15 false ++ [false, false, false] ++
  List.replicate 7 true ++ List.replicate 3 true

/-- The frame the decoder actually produces for `c3bits`. -/
def c3frame : CANData :=
  { sof := some 1, can_id := some 1, rtr := some 0, ide := some 0,
    srr := Option.none, extended_can_id := Option.none, r0 := some 0,
    data_length_code := some 1, data := some 170, crc_segment := some 0,
    crc_delimiter := some 0, ack_bit := some 0, ack_delimiter := some 0,
    end_of_frame := some 127, interframe_space := some 7 }

/-- A 12-bit input (kept intact by normalization since it starts with 1)
whose 11-bit arbitration id decodes to 7, which has no entry in
`ID_TO_SENSOR_MAP`. -/
def c4bits : List Bool :=
  [true] ++ [false, false, false, false, false, false, false, false, true, true, true]

/-- A 47-bit frame with first bit 1, arbitration id 2 (Acceleration) and
DLC = `0000`, so the data field is a zero-bit read. -/
def c7bits : List Bool :=
  [true] ++ (List.replicate 9 false ++ [true, false]) ++ [false] ++ [false] ++
  [false] ++ [false, false, false, false] ++ List.replicate 15 false ++
  [true] ++ [false] ++ [true] ++ List.replicate 7 true ++ List.replicate 3 true

/-- A 66-bit extended frame with first bit 1, arbitration id 3 (WheelSpeed),
first RTR = 1, IDE = 1, 18 zero extension bits, second RTR = 0, DLC = 0. -/
def c8bits : List Bool :=
  [true] ++ (List.replicate 9 false ++ [true, true]) ++ [true] ++ [true] ++
  List.replicate 18 false ++ [false] ++ [false] ++ List.replicate 4 false ++
  List.replicate 15 false ++ [true] ++ [false] ++ [true] ++
  List.replicate 7 true ++ List.replicate 3 true

/-- The frame the decoder produces for `c8bits`. -/
def c8frame : CANData :=
  { sof := some 1, can_id := some 3, rtr := some 0, ide := some 1,
    srr := some 1, extended_can_id := some 0, r0 := some 0,
    data_length_code := some 0, data := Option.none, crc_segment := some 0,
    crc_delimiter := some 1, ack_bit := some 0, ack_delimiter := some 1,
    end_of_frame := some 127, interframe_space := some 7 }

/-! Helper lemmas. -/

/-- A decoded field value is an `int` or `None`, never a `str`, so the
source's fixed-bit comparisons against the string `"0"` are always false. -/
theorem pyEq_opt_str (v : Option Nat) (s : String) :
    pyEq (optToPyVal v) (PyVal.str s) = false := by
  cases v <;> rfl

/-- Inversion for `Except` bind. -/
theorem bind_ok_iff {α β : Type} (x : Except DecErr α) (f : α → Except DecErr β)
    (b : β) :
    x >>= f = Except.ok b ↔ ∃ a, x = Except.ok a ∧ f a = Except.ok b := by
  cases x <;> simp [Bind.bind, Except.bind]

/-- `read_bits_as_int` with a positive count: `ValueError` on an exhausted
message, otherwise the value of the (possibly short) slice. -/
theorem read_bits_as_int_pos (n : Nat) (msg : List Bool) (h : 0 < n) :
    read_bits_as_int n msg =
      if msg = [] then Except.error DecErr.valueError
      else Except.ok (some (bitsToNat (msg.take n)), msg.drop n) := by
  cases n with
  | zero => exact absurd h (lt_irrefl 0)
  | succ k => cases msg <;> simp [read_bits_as_int, read_bits]

/-- A successful positive-width read determines the value and the new state. -/
theorem read_pos_ok {n : Nat} {msg : List Bool} {a : Option Nat × List Bool}
    (hn : 0 < n) (h : read_bits_as_int n msg = Except.ok a) :
    a = (some (bitsToNat (msg.take n)), msg.drop n) := by
  rw [read_bits_as_int_pos n msg hn] at h
  by_cases hm : msg = []
  · rw [if_pos hm] at h
    exact absurd h (by simp)
  · rw [if_neg hm] at h
    exact (Except.ok.injEq _ _ ▸ h).symm

/-- Leading `false` digits do not change the value `int(s, 2)` parses. -/
theorem bitsToNat_replicate_false (k : Nat) (s : List Bool) :
    bitsToNat (List.replicate k false ++ s) = bitsToNat s := by
  induction k with
  | zero => rfl
  | succ k ih =>
      rw [List.replicate_succ, List.cons_append]
      exact ih

/-! Theorems for the claims. -/

/-- C1: laying out the spec's concrete Temperature frame field-by-field into
a bitstream and decoding it does NOT reproduce the frame: `decode_full`
raises `NotImplementedError`, because `__init__`'s `bin(int(...))`
normalization strips the leading SOF-zero and arbitration-id zeros and every
later field is then read out of alignment (the misread arbitration id is 16).
The round-trip property fails on the code. -/
theorem roundtrip_handbuilt_frame_not_decoded :
    decode_full (.bitsStr c1bits) = Except.error DecErr.notImplemented ∧
    decode_full (.bitsStr c1bits) ≠ Except.ok (SensorType.temperature, c1frame) := by
  have h1 : decode_full (.bitsStr c1bits) = Except.error DecErr.notImplemented := rfl
  refine ⟨h1, ?_⟩
  intro h
  rw [h1] at h
  exact Except.noConfusion h

/-- C2: on the spec's concrete 55-bit Temperature scenario, `decode` does not
return `(Temperature, 0)`: normalization drops the eleven leading zero bits,
the fields misalign, the arbitration id reads as 16, and the decoder raises
`NotImplementedError`. -/
theorem concrete_temperature_scenario_errors :
    decode (.bitsStr c1bits) = Except.error DecErr.notImplemented ∧
    decode (.bitsStr c1bits) ≠ Except.ok (SensorType.temperature, some 0) := by
  have h1 : decode (.bitsStr c1bits) = Except.error DecErr.notImplemented := rfl
  refine ⟨h1, ?_⟩
  intro h
  rw [h1] at h
  exact Except.noConfusion h

/-- C3: the fixed-bit validations never fire.  `c3bits` decodes its
start-of-frame bit as 1, its CRC delimiter as 0 and its ACK delimiter as 0,
yet decoding succeeds — no `InvalidBitException` is raised, because the
source compares the decoded `int` to the string `"0"`, which in Python is
always `False`. -/
theorem fixed_bit_violations_decode_ok :
    decode_full (.bitsStr c3bits) = Except.ok (SensorType.temperature, c3frame) ∧
    c3frame.sof = some 1 ∧ c3frame.crc_delimiter = some 0 ∧
    c3frame.ack_delimiter = some 0 := by
  exact ⟨rfl, rfl, rfl, rfl⟩

/-- C4: an arbitration id outside `{1, 2, 3, 4, 5}` (here 7) makes the
decoder fail immediately after the id is read — the 12-bit input contains no
further fields — but with a bare `NotImplementedError` that carries no id,
not with an `UnknownArbitrationId(id)` error. -/
theorem unknown_id_raises_bare_not_implemented :
    decode_full (.bitsStr c4bits) = Except.error DecErr.notImplemented := by
  rfl

set_option maxRecDepth 1000000 in
/-- C5: the integer input `2 ^ 129` normalizes to exactly 130 bits, yet the
decoder rejects it: the guard `len(self.message) > 130` measures the
`"0b"`-prefixed string, so it raises `MessageLengthException` carrying 132.
The effective maximum is 128 bits, contradicting the code's own comment that
130 bits is the maximum message length. -/
theorem length_130_bits_rejected :
    (pyBin (2 ^ 129)).length = 130 ∧
    decode_full (.intVal (2 ^ 129)) = Except.error (DecErr.messageLength 132) := by
  exact ⟨rfl, rfl⟩

/-- C6 counterexample: a 2-bit read on a cursor holding a single bit does not
fail at all — it silently returns the one available bit as the value 1; a
read on an exhausted cursor fails, but with Python's untyped `ValueError`
from `int("", 2)`, and no `InsufficientBits(requested, available)` error
exists anywhere in the code. -/
theorem read_past_end_returns_ok :
    read_bits 2 [true] = ([true], []) ∧
    read_bits_as_int 2 [true] = Except.ok (some 1, []) ∧
    read_bits_as_int 1 ([] : List Bool) = Except.error DecErr.valueError := by
  exact ⟨rfl, rfl, rfl⟩

/-- C6 amended: when fewer than `n` bits remain, `read_bits` silently
returns the whole remaining message and leaves it empty, and
`read_bits_as_int` returns the value of those remaining bits — or raises the
untyped `ValueError` when none remain at all. -/
theorem read_past_end_silent (n : Nat) (msg : List Bool) (h : msg.length < n) :
    read_bits n msg = (msg, []) ∧
    read_bits_as_int n msg =
      (if msg = [] then Except.error DecErr.valueError
       else Except.ok (some (bitsToNat msg), [])) := by
  have hle : msg.length ≤ n := le_of_lt h
  have ht : msg.take n = msg := List.take_of_length_le hle
  have hd : msg.drop n = [] := List.drop_eq_nil_of_le hle
  have hn : 0 < n := lt_of_le_of_lt (Nat.zero_le _) h
  refine ⟨by rw [read_bits, ht, hd], ?_⟩
  rw [read_bits_as_int_pos n msg hn, ht, hd]

/-- C6 witness: the amended statement at `n = 2`, `msg = [true]`. -/
theorem read_past_end_silent_witness :
    read_bits 2 [true] = ([true], []) ∧
    read_bits_as_int 2 [true] =
      (if ([true] : List Bool) = [] then Except.error DecErr.valueError
       else Except.ok (some (bitsToNat [true]), [])) :=
  read_past_end_silent 2 [true] (by decide)

/-- C7: `read_bits_as_int 0` returns Python `None` for every cursor state —
the `if num_bits > 0` body is skipped and the function falls through —
contradicting the spec's requirement of a defined zero; consequently a frame
with `data_length_code = 0` (such as `c7bits`) decodes with `data = None`,
not `0`. -/
theorem read_zero_bits_returns_none :
    (∀ message : List Bool,
      read_bits_as_int 0 message = Except.ok (Option.none, message)) ∧
    decode (.bitsStr c7bits) = Except.ok (SensorType.acceleration, Option.none) := by
  exact ⟨fun message => rfl, rfl⟩

/-- Helper for C9: the non-empty-string case. -/
theorem normalization_aux (s : List Bool) (k : Nat)
    (h : s ≠ []) :
    decode (.bitsStr (List.replicate k false ++ s)) = decode (.bitsStr s) ∧
    decode (.intVal (bitsToNat s)) = decode (.bitsStr s) ∧
    decode_full (.bitsStr (List.replicate k false ++ s)) = decode_full (.bitsStr s) ∧
    decode_full (.intVal (bitsToNat s)) = decode_full (.bitsStr s) := by
  have hpad : List.replicate k false ++ s ≠ [] := by
    simp [List.append_eq_nil, h]
  have hinit : canInit (.bitsStr (List.replicate k false ++ s)) =
      canInit (.bitsStr s) := by
    simp [canInit, hpad, h, bitsToNat_replicate_false]
  have hinit2 : canInit (.intVal (bitsToNat s)) = canInit (.bitsStr s) := by
    simp [canInit, h]
  refine ⟨?_, ?_, ?_, ?_⟩ <;>
    simp only [decode, decode_full, hinit, hinit2]

/-- C9: normalization reduces every input to the minimal binary
representation of its numeric value, so a binary digit string, the same
string with any number of leading zeros prepended, and the integer whose
binary value the string denotes all decode to exactly the same result,
through `decode` and through `decode_full`.  (For the empty string the
decoder raises `ValueError` while parsing the input, and an all-zeros string
raises the same `ValueError` at the arbitration-id read, so the results
still agree.) -/
theorem normalization_ignores_leading_zeros (s : List Bool) (k : Nat) :
    decode (.bitsStr (List.replicate k false ++ s)) = decode (.bitsStr s) ∧
    decode (.intVal (bitsToNat s)) = decode (.bitsStr s) ∧
    decode_full (.bitsStr (List.replicate k false ++ s)) = decode_full (.bitsStr s) ∧
    decode_full (.intVal (bitsToNat s)) = decode_full (.bitsStr s) := by
  by_cases h : s = []
  · subst h
    have hz : ∀ j, bitsToNat (List.replicate j false) = 0 := by
      intro j
      have h2 := bitsToNat_replicate_false j ([] : List Bool)
      rwa [List.append_nil] at h2
    rw [List.append_nil]
    cases k with
    | zero => exact ⟨rfl, rfl, rfl, rfl⟩
    | succ k =>
        have hne : List.replicate (k + 1) false ≠ [] := by simp
        have hinit : canInit (.bitsStr (List.replicate (k + 1) false)) =
            Except.ok [false] := by
          simp [canInit, hne, hz, pyBin, lengthCheck]
        have hempty : canInit (.bitsStr ([] : List Bool)) =
            Except.error DecErr.valueError := rfl
        have hwalk : decode_can_message [false] = Except.error DecErr.valueError := rfl
        have hwalk2 : _decode_can_message [false] = Except.error DecErr.valueError := rfl
        refine ⟨?_, rfl, ?_, rfl⟩ <;>
          simp [decode, decode_full, hinit, hempty, Bind.bind, Except.bind,
            hwalk, hwalk2]
  · exact normalization_aux s k h

/-- C10: `read_bits` is total and never signals: it returns exactly the
first `min n m` bits of an `m`-bit message and leaves the rest, and the
concatenation of two successive reads is an initial segment (`take`) of the
original message, which it reconstructs together with the final remainder. -/
theorem read_bits_total_min_prefix (n₁ n₂ : Nat) (msg : List Bool) :
    read_bits n₁ msg = (msg.take n₁, msg.drop n₁) ∧
    (read_bits n₁ msg).1.length = min n₁ msg.length ∧
    (read_bits n₁ msg).1 ++ (read_bits n₂ (read_bits n₁ msg).2).1 =
      msg.take (n₁ + n₂) ∧
    msg.take (n₁ + n₂) ++ msg.drop (n₁ + n₂) = msg := by
  refine ⟨rfl, ?_, ?_, List.take_append_drop _ _⟩
  · simp [read_bits]
  · simp only [read_bits]
    exact (List.take_add msg n₁ n₂).symm

/-- C8: the IDE branch.  For every successful decode, a frame decoded with
`ide = 0` has `srr` and `extended_can_id` recorded as `None`, and a frame
decoded with `ide = 1` has `srr` holding the first-read RTR bit (wire
position 12 of the normalized message) while the final `rtr` field holds the
second RTR bit, re-read after the 18-bit extension at wire position 32. -/
theorem ide_branch_field_assignment (input : CANInput) (message : List Bool)
    (s : SensorType) (fr : CANData)
    (hinit : canInit input = Except.ok message)
    (hdec : _decode_can_message message = Except.ok (s, fr)) :
    decode_full input = Except.ok (s, fr) ∧
    (fr.ide = some 0 →
      fr.srr = Option.none ∧ fr.extended_can_id = Option.none) ∧
    (fr.ide = some 1 →
      fr.srr = some (bitsToNat ((message.drop 12).take 1)) ∧
      fr.rtr = some (bitsToNat ((message.drop 32).take 1))) := by
  refine ⟨by simp [decode_full, hinit, Bind.bind, Except.bind, hdec], ?_⟩
  unfold _decode_can_message at hdec
  -- start-of-frame read and its (never firing) fixed-bit guard
  rw [bind_ok_iff] at hdec
  obtain ⟨⟨sof, m⟩, h1, hdec⟩ := hdec
  have e := read_pos_ok (by decide) h1
  rw [Prod.mk.injEq] at e
  obtain ⟨rfl, rfl⟩ := e
  dsimp only at hdec
  rw [pyEq_opt_str] at hdec
  simp only [Bool.false_eq_true, if_false, pure_bind] at hdec
  -- arbitration id read and sensor lookup
  rw [bind_ok_iff] at hdec
  obtain ⟨⟨can_id, m⟩, h2, hdec⟩ := hdec
  have e := read_pos_ok (by decide) h2
  rw [Prod.mk.injEq] at e
  obtain ⟨rfl, rfl⟩ := e
  dsimp only at hdec
  cases hml : mapLookup (some (bitsToNat (List.take 11 (List.drop 1 message)))) with
  | none =>
      rw [hml] at hdec
      exact Except.noConfusion hdec
  | some s0 =>
  rw [hml] at hdec
  -- first RTR read
  rw [bind_ok_iff] at hdec
  obtain ⟨⟨rtr1, m⟩, h3, hdec⟩ := hdec
  have e := read_pos_ok (by decide) h3
  rw [Prod.mk.injEq] at e
  obtain ⟨rfl, rfl⟩ := e
  dsimp only at hdec
  -- IDE read
  rw [bind_ok_iff] at hdec
  obtain ⟨⟨idev, m⟩, h4, hdec⟩ := hdec
  have e := read_pos_ok (by decide) h4
  rw [Prod.mk.injEq] at e
  obtain ⟨rfl, rfl⟩ := e
  dsimp only at hdec
  -- int(ide)
  rw [bind_ok_iff] at hdec
  obtain ⟨iv, hiv, hdec⟩ := hdec
  have hiv2 : Except.ok (ε := DecErr)
      (bitsToNat (List.take 1 (List.drop 1 (List.drop 11 (List.drop 1 message))))) =
      Except.ok iv := hiv
  injection hiv2 with e0
  by_cases hv : iv = 1
  · -- extended-id branch
    subst hv
    simp only [beq_self_eq_true, if_true] at hdec
    -- 18-bit extension read
    rw [bind_ok_iff] at hdec
    obtain ⟨⟨ext, m⟩, h5, hdec⟩ := hdec
    have e := read_pos_ok (by decide) h5
    rw [Prod.mk.injEq] at e
    obtain ⟨rfl, rfl⟩ := e
    dsimp only at hdec
    -- second RTR read
    rw [bind_ok_iff] at hdec
    obtain ⟨⟨rtr2, m⟩, h6, hdec⟩ := hdec
    have e := read_pos_ok (by decide) h6
    rw [Prod.mk.injEq] at e
    obtain ⟨rfl, rfl⟩ := e
    dsimp only at hdec
    -- reserved bit
    rw [bind_ok_iff] at hdec
    obtain ⟨p7, _, hdec⟩ := hdec
    -- DLC
    rw [bind_ok_iff] at hdec
    obtain ⟨p8, _, hdec⟩ := hdec
    -- int(dlc) * 8
    rw [bind_ok_iff] at hdec
    obtain ⟨dv, hdv, hdec⟩ := hdec
    cases hq : p8.1 with
    | none =>
        rw [hq] at hdv
        exact Except.noConfusion hdv
    | some d =>
    rw [hq] at hdv
    have hdv2 : Except.ok (ε := DecErr) d = Except.ok dv := hdv
    injection hdv2 with e1
    subst e1
    -- data
    rw [bind_ok_iff] at hdec
    obtain ⟨p9, _, hdec⟩ := hdec
    -- CRC segment
    rw [bind_ok_iff] at hdec
    obtain ⟨p10, _, hdec⟩ := hdec
    -- CRC delimiter and its guard
    rw [bind_ok_iff] at hdec
    obtain ⟨p11, _, hdec⟩ := hdec
    rw [pyEq_opt_str] at hdec
    simp only [Bool.false_eq_true, if_false] at hdec
    -- ACK bit
    rw [bind_ok_iff] at hdec
    obtain ⟨p12, _, hdec⟩ := hdec
    -- ACK delimiter and its guard
    rw [bind_ok_iff] at hdec
    obtain ⟨p13, _, hdec⟩ := hdec
    rw [pyEq_opt_str] at hdec
    simp only [Bool.false_eq_true, if_false] at hdec
    -- EOF
    rw [bind_ok_iff] at hdec
    obtain ⟨p14, _, hdec⟩ := hdec
    -- IFS
    rw [bind_ok_iff] at hdec
    obtain ⟨p15, _, hdec⟩ := hdec
    -- final record
    have e2 := Except.ok.inj (hdec : Except.ok _ = Except.ok (s, fr))
    rw [Prod.mk.injEq] at e2
    obtain ⟨rfl, hfr⟩ := e2
    subst hfr
    constructor
    · intro hc
      dsimp only at hc
      rw [e0] at hc
      exact absurd hc (by decide)
    · intro _
      constructor
      · dsimp only
        simp [List.drop_drop]
      · dsimp only
        simp [List.drop_drop]
  · -- standard-id branch
    have hbf : (iv == 1) = false := beq_eq_false_iff_ne.mpr hv
    rw [hbf] at hdec
    simp only [Bool.false_eq_true, if_false] at hdec
    -- reserved bit
    rw [bind_ok_iff] at hdec
    obtain ⟨p7, _, hdec⟩ := hdec
    -- DLC
    rw [bind_ok_iff] at hdec
    obtain ⟨p8, _, hdec⟩ := hdec
    -- int(dlc) * 8
    rw [bind_ok_iff] at hdec
    obtain ⟨dv, hdv, hdec⟩ := hdec
    cases hq : p8.1 with
    | none =>
        rw [hq] at hdv
        exact Except.noConfusion hdv
    | some d =>
    rw [hq] at hdv
    have hdv2 : Except.ok (ε := DecErr) d = Except.ok dv := hdv
    injection hdv2 with e1
    subst e1
    -- data
    rw [bind_ok_iff] at hdec
    obtain ⟨p9, _, hdec⟩ := hdec
    -- CRC segment
    rw [bind_ok_iff] at hdec
    obtain ⟨p10, _, hdec⟩ := hdec
    -- CRC delimiter and its guard
    rw [bind_ok_iff] at hdec
    obtain ⟨p11, _, hdec⟩ := hdec
    rw [pyEq_opt_str] at hdec
    simp only [Bool.false_eq_true, if_false] at hdec
    -- ACK bit
    rw [bind_ok_iff] at hdec
    obtain ⟨p12, _, hdec⟩ := hdec
    -- ACK delimiter and its guard
    rw [bind_ok_iff] at hdec
    obtain ⟨p13, _, hdec⟩ := hdec
    rw [pyEq_opt_str] at hdec
    simp only [Bool.false_eq_true, if_false] at hdec
    -- EOF
    rw [bind_ok_iff] at hdec
    obtain ⟨p14, _, hdec⟩ := hdec
    -- IFS
    rw [bind_ok_iff] at hdec
    obtain ⟨p15, _, hdec⟩ := hdec
    -- final record
    have e2 := Except.ok.inj (hdec : Except.ok _ = Except.ok (s, fr))
    rw [Prod.mk.injEq] at e2
    obtain ⟨rfl, hfr⟩ := e2
    subst hfr
    constructor
    · intro _
      exact ⟨rfl, rfl⟩
    · intro hc
      dsimp only at hc
      rw [e0] at hc
      injection hc with hc1
      exact absurd hc1 hv

set_option maxRecDepth 1000000 in
/-- C8 witness: the theorem applied to the concrete extended frame `c8bits`,
whose first RTR bit is 1 and second RTR bit is 0. -/
theorem ide_branch_field_assignment_witness :
    decode_full (.bitsStr c8bits) = Except.ok (SensorType.wheelSpeed, c8frame) ∧
    c8frame.srr = some (bitsToNat ((c8bits.drop 12).take 1)) ∧
    c8frame.rtr = some (bitsToNat ((c8bits.drop 32).take 1)) := by
  have hinit : canInit (.bitsStr c8bits) = Except.ok c8bits := rfl
  have hdec : _decode_can_message c8bits =
      Except.ok (SensorType.wheelSpeed, c8frame) := rfl
  have h := ide_branch_field_assignment (.bitsStr c8bits) c8bits
    SensorType.wheelSpeed c8frame hinit hdec
  exact ⟨h.1, h.2.2 rfl⟩

end Mercury
